import Mathlib

/-!
Shallow embedding of the depth auto-exposure (AE) streaming tests of
`unit-tests/live/d400/test-depth-ae-toggle.py` and
`unit-tests/live/d400/test-depth-ae-metadata.py`, together with proofs about
the embedded operations.

Modelling conventions:
* Host timestamps (Python floats, milliseconds) are modelled as rationals.
* A frame's AUTO_EXPOSURE metadata is modelled as `Option Int`: `none` when
  `frame.supports_frame_metadata(...)` is false, `some v` otherwise.
* Python's `range(a, b)` loop bounds are modelled with `List.range' a (b - a)`,
  and counter-accumulating loops become `List.foldl` over that index list.
* The asynchronous producer (the device delivering frames to the callback) is
  modelled by explicit observation sequences: the counter values the polling
  loops read at each iteration.
-/

namespace AeTests


/-! ### Inter-frame gaps -/

/-- The list of consecutive timestamp differences
`[ts[1] - ts[0], ts[2] - ts[1], ...]`. -/
def gapsOf (ts : List ℚ) : List ℚ :=
  List.zipWith (fun a b => b - a) ts ts.tail


/-! ### `test-depth-ae-toggle.py` -/

namespace AeToggle

/-- `StreamingContext` of `test-depth-ae-toggle.py` (lines 48-61): frame count,
host timestamps, and AUTO_EXPOSURE metadata collected during streaming. -/
structure StreamingContext where
  frame_count : Nat := 0
  frame_timestamps : List ℚ := []
  frame_ae_metadata : List (Option Int) := []
deriving DecidableEq

/-- `StreamingContext.frame_callback` (lines 54-61).  The frame is represented
by its host arrival time and its AUTO_EXPOSURE metadata (`none` when
`supports_frame_metadata` is false, in which case the `else` branch appends
`None`). -/
def frame_callback (ctx : StreamingContext) (now_ms : ℚ) (ae : Option Int) :
    StreamingContext :=
  let ctx1 : StreamingContext :=
    { ctx with
      frame_count := ctx.frame_count + 1
      frame_timestamps := ctx.frame_timestamps ++ [now_ms] }
  match ae with
  | some ae_metadata =>
    { ctx1 with frame_ae_metadata := ctx1.frame_ae_metadata ++ [some ae_metadata] }
  | none =>
    { ctx1 with frame_ae_metadata := ctx1.frame_ae_metadata ++ [none] }

/-- Folding a sequence of frame deliveries into a fresh context. -/
def run_callbacks (events : List (ℚ × Option Int)) : StreamingContext :=
  events.foldl (fun ctx e => frame_callback ctx e.1 e.2) {}

/-- `verify_ae_metadata` of `test-depth-ae-toggle.py` (lines 64-85): count the
frames in `[start_frame, end_frame)` whose recorded AUTO_EXPOSURE metadata is
present and disagrees (as the boolean `metadata != 0`) with the expected AE
state.  The function only reads `context.frame_ae_metadata`, so the embedding
takes that list directly. -/
def verify_ae_metadata (frame_ae_metadata : List (Option Int))
    (start_frame end_frame : Nat) (expected_ae_state : Bool) : Nat :=
  (List.range' start_frame (end_frame - start_frame)).foldl
    (fun metadata_errors i =>
      if i < frame_ae_metadata.length then
        match frame_ae_metadata.getD i none with
        | some ae_metadata =>
          if (ae_metadata != 0) != expected_ae_state then metadata_errors + 1
          else metadata_errors
        | none => metadata_errors
      else metadata_errors) 0

/-- `count_gap_spikes` (lines 109-131): count inter-frame gaps, from index
`max(1, start_idx + 1)` on, strictly greater than
`frame_time_ms * (1 + spike_threshold_percent / 100)`. -/
def count_gap_spikes (frame_timestamps : List ℚ) (frame_time_ms : ℚ)
    (spike_threshold_percent : ℚ := 10) (start_idx : Nat := 0) : Nat :=
  let threshold_ms := frame_time_ms * (1 + spike_threshold_percent / 100)
  if 1 < frame_timestamps.length then
    (List.range' (max 1 (start_idx + 1))
        (frame_timestamps.length - max 1 (start_idx + 1))).foldl
      (fun spike_count i =>
        if frame_timestamps.getD i 0 - frame_timestamps.getD (i - 1) 0 > threshold_ms
        then spike_count + 1
        else spike_count) 0
  else 0

/-- The `total_time` / `count` accumulation loop of `calculate_average_frame_time`
(lines 150-166): sum and count the gaps, skipping a gap strictly greater than
the threshold when a threshold is present. -/
def average_accum (frame_timestamps : List ℚ) (spike_threshold_ms : Option ℚ)
    (idxs : List Nat) : ℚ × Nat :=
  idxs.foldl
    (fun acc i =>
      let gap := frame_timestamps.getD i 0 - frame_timestamps.getD (i - 1) 0
      match spike_threshold_ms with
      | some t => if gap > t then acc else (acc.1 + gap, acc.2 + 1)
      | none => (acc.1 + gap, acc.2 + 1)) (0, 0)

/-- `calculate_average_frame_time` (lines 134-168): average inter-frame gap
from index `max(1, start_idx + 1)` on, excluding gaps above the spike
threshold when `frame_time_ms` is supplied; `0` when fewer than 2 timestamps
exist or no gap survives. -/
def calculate_average_frame_time (frame_timestamps : List ℚ) (start_idx : Nat := 0)
    (frame_time_ms : Option ℚ := none) (spike_threshold_percent : ℚ := 10) : ℚ :=
  if frame_timestamps.length < 2 then 0
  else
    let spike_threshold_ms :=
      frame_time_ms.map fun t => t * (1 + spike_threshold_percent / 100)
    let acc := average_accum frame_timestamps spike_threshold_ms
      (List.range' (max 1 (start_idx + 1))
        (frame_timestamps.length - max 1 (start_idx + 1)))
    if 0 < acc.2 then acc.1 / (acc.2 : ℚ) else 0

/-- `wait_for_frames` (lines 171-188), with the asynchronous counter made
explicit: `polls` is the sequence of `(frame_count, elapsed)` observations the
loop makes, one per iteration.  `some true` means the wait succeeded,
`some false` means it timed out, `none` means the observation sequence ended
before the loop decided (the real loop polls forever, so a complete run always
decides). -/
def wait_for_frames (frames_before target_frames : Nat) (timeout : ℚ) :
    List (Nat × ℚ) → Option Bool
  | [] => none
  | (frame_count, elapsed) :: polls =>
    if frame_count - frames_before < target_frames then
      if elapsed > timeout then some false
      else wait_for_frames frames_before target_frames timeout polls
    else some true

/-- `expected_spike_gaps = 2 * num_iterations` (line 472 of the
manual-to-AE scenario). -/
def expected_spike_gaps (num_iterations : Nat) : Nat :=
  2 * num_iterations

/-- `unexpected_spikes = max(0, total_spike_count - expected_spike_gaps)`
(line 473).  Python subtraction of ints is modelled on `Int`. -/
def unexpected_spikes (total_spike_count : Nat) (num_iterations : Nat) : Int :=
  max 0 ((total_spike_count : Int) - (expected_spike_gaps num_iterations : Int))

end AeToggle

/-! ### `test-depth-ae-metadata.py` -/

namespace AeMetadata

/-- `StreamingContext` of `test-depth-ae-metadata.py` (lines 48-66): frame
count and AUTO_EXPOSURE metadata (no timestamps in this file). -/
structure StreamingContext where
  frame_count : Nat := 0
  frame_ae_metadata : List (Option Int) := []
deriving DecidableEq

/-- `StreamingContext.frame_callback` (lines 58-66). -/
def frame_callback (ctx : StreamingContext) (ae : Option Int) : StreamingContext :=
  let ctx1 : StreamingContext := { ctx with frame_count := ctx.frame_count + 1 }
  match ae with
  | some ae_metadata =>
    { ctx1 with frame_ae_metadata := ctx1.frame_ae_metadata ++ [some ae_metadata] }
  | none =>
    { ctx1 with frame_ae_metadata := ctx1.frame_ae_metadata ++ [none] }

/-- Folding a sequence of frame deliveries into a fresh context. -/
def run_callbacks (events : List (Option Int)) : StreamingContext :=
  events.foldl (fun ctx e => frame_callback ctx e) {}

/-- The counting loop of the steady-state helper `verify_ae_metadata`
(lines 123-136): over `received_frames[:num_frames]`, increment
`frames_checked` for every frame, and `metadata_matches` only for a frame
whose metadata is present and whose boolean `metadata != 0` equals the
expected state.  Result is `(metadata_matches, frames_checked)` as returned
at line 136. -/
def verify_ae_metadata_counts (received_frames : List (Option Int))
    (expected_ae_enabled : Bool) (num_frames : Nat) : Nat × Nat :=
  (received_frames.take num_frames).foldl
    (fun acc m =>
      match m with
      | some ae_metadata =>
        if ((ae_metadata != 0) == expected_ae_enabled) then (acc.1 + 1, acc.2 + 1)
        else (acc.1, acc.2 + 1)
      | none => (acc.1, acc.2 + 1)) (0, 0)

/-- `verify_ae_metadata_from_context` (lines 146-170): identical counting loop
to `AeToggle.verify_ae_metadata`. -/
def verify_ae_metadata_from_context (frame_ae_metadata : List (Option Int))
    (start_frame end_frame : Nat) (expected_ae_state : Bool) : Nat :=
  (List.range' start_frame (end_frame - start_frame)).foldl
    (fun metadata_errors i =>
      if i < frame_ae_metadata.length then
        match frame_ae_metadata.getD i none with
        | some ae_metadata =>
          if (ae_metadata != 0) != expected_ae_state then metadata_errors + 1
          else metadata_errors
        | none => metadata_errors
      else metadata_errors) 0

end AeMetadata

/-! ### Stream profile selection and scenario gating -/

/-- Stream type of a profile (only `depth` matters to these tests). -/
inductive StreamType
  | depth
  | infrared
  | color
deriving DecidableEq

/-- Pixel layout of a profile. -/
inductive StreamFmt
  | z16
  | y8
deriving DecidableEq

/-- The slice of a `pyrealsense2` stream profile these tests inspect. -/
structure StreamProfile where
  stream : StreamType
  fmt : StreamFmt
  fps : Nat
deriving DecidableEq

/-- Profile selection in `test-depth-ae-toggle.py` (lines 207-212, likewise
304-308 and 388-393): first 30fps depth profile, falling back to the first
profile of the list when none matches (`none` only for an empty list, where
the Python fallback expression itself raises). -/
def select_depth_profile_toggle (profiles : List StreamProfile) :
    Option StreamProfile :=
  match profiles.find? (fun p => p.stream == StreamType.depth && p.fps == 30) with
  | some p => some p
  | none => profiles.head?

/-- Profile selection in the rapid-toggle scenario of
`test-depth-ae-metadata.py` (lines 224-228): first 30fps depth profile, no
fallback. -/
def select_depth_profile_metadata (profiles : List StreamProfile) :
    Option StreamProfile :=
  profiles.find? (fun p => p.stream == StreamType.depth && p.fps == 30)

/-- The missing-profile guard of `toggle_ae_while_streaming` in
`test-depth-ae-metadata.py` (lines 229-231): when no 30fps depth profile
exists the function returns `(False, 0, 0)` without streaming; `none` means
execution proceeds past the guard. -/
def toggle_metadata_profile_guard (profiles : List StreamProfile) :
    Option (Bool × Nat × Nat) :=
  match select_depth_profile_metadata profiles with
  | none => some (false, 0, 0)
  | some _ => none

/-- Profile selection in the steady-state helper `verify_ae_metadata` of
`test-depth-ae-metadata.py` (lines 88-91): first 30fps z16 depth profile, no
fallback. -/
def select_depth_profile_steady (profiles : List StreamProfile) :
    Option StreamProfile :=
  profiles.find?
    (fun p => p.stream == StreamType.depth && p.fmt == StreamFmt.z16 && p.fps == 30)

/-- The missing-profile guard of the steady-state helper (lines 92-94): when
no 30fps z16 depth profile exists the helper returns `(0, 0)` without
streaming. -/
def steady_profile_guard (profiles : List StreamProfile) : Option (Nat × Nat) :=
  match select_depth_profile_steady profiles with
  | none => some (0, 0)
  | some _ => none

/-- Verdict a scenario receives from the test harness. -/
inductive Verdict
  | passed
  | failed
  | skipped
deriving DecidableEq

/-- Modelled from the spec: the check primitive of the CLI test harness
(`rspy` `test.check`, outside `src/`).  Section 6.3 of the spec has each
scenario produce `passed : bool`; a check that receives `false` records a
failure for the running scenario, and no check outcome produces a skip. -/
def checkResult (cond : Bool) : Verdict :=
  if cond then Verdict.passed else Verdict.failed

/-! ### The rapid-toggle scenario loop

`toggle_ae_while_streaming` of `test-depth-ae-toggle.py` (lines 191-295)
interleaves device waits with bookkeeping.  Each `wait_for_frames` call is
summarised by a `WaitOutcome`: whether it returned true, and the value of
`context.frame_count` when it returned.  `traceWf` states the compatibility
conditions such a summary inherits from the `wait_for_frames` contract: the
counter never decreases, a successful wait saw the counter rise by at least
its target, and a timed-out wait did not.
-/

namespace AeToggle

/-- Summary of one `wait_for_frames` call inside the scenario loop: the
returned boolean and the frame count observed when the call returned. -/
structure WaitOutcome where
  ok : Bool
  after : Nat
deriving DecidableEq

/-- The tuple `(success, total_frames, metadata_errors)` of the scenario
(the spike statistics of the 5-tuple at line 295 are computed separately by
`count_gap_spikes` / `calculate_average_frame_time` and are not part of the
loop). -/
structure ToggleResult where
  success : Bool
  total_frames : Nat
  metadata_errors : Nat
deriving DecidableEq

/-- The `for toggle_idx in range(num_toggles)` loop of
`toggle_ae_while_streaming` (lines 230-295).  Arguments after the fixed
parameters: iterations remaining, whether this is `toggle_idx == 0`, the
current AE state, the current frame count, accumulated metadata errors, and
the outcomes of the remaining waits.  On `toggle_idx > 0` the state is
toggled first and a stabilization wait (of `frames_between_toggles` frames)
is consumed; a failed wait returns `(False, frame_count, metadata_errors)`
immediately (lines 241-248 and 255-263); otherwise a collect wait (of
`frames_per_state` frames) is consumed and the window
`[frames_before, frame_count)` is verified (line 268).  After the loop,
`success = frame_count >= required` with
`required = num_toggles * frames_per_state` (line 294). -/
def toggleGo (md : List (Option Int)) (frames_per_state required : Nat) :
    Nat → Bool → Bool → Nat → Nat → List WaitOutcome → ToggleResult
  | 0, _, _, frame_count, metadata_errors, _ =>
    ⟨decide (required ≤ frame_count), frame_count, metadata_errors⟩
  | remaining + 1, isFirst, current_ae_state, frame_count, metadata_errors, outcomes =>
    if isFirst then
      match outcomes with
      | [] => ⟨false, frame_count, metadata_errors⟩
      | o :: rest =>
        if o.ok then
          toggleGo md frames_per_state required remaining false current_ae_state o.after
            (metadata_errors + verify_ae_metadata md frame_count o.after current_ae_state)
            rest
        else ⟨false, o.after, metadata_errors⟩
    else
      match outcomes with
      | [] => ⟨false, frame_count, metadata_errors⟩
      | o1 :: rest1 =>
        if o1.ok then
          match rest1 with
          | [] => ⟨false, o1.after, metadata_errors⟩
          | o2 :: rest2 =>
            if o2.ok then
              toggleGo md frames_per_state required remaining false (!current_ae_state)
                o2.after
                (metadata_errors
                  + verify_ae_metadata md o1.after o2.after (!current_ae_state))
                rest2
            else ⟨false, o2.after, metadata_errors⟩
        else ⟨false, o1.after, metadata_errors⟩

/-- `toggle_ae_while_streaming` as a function of the recorded metadata, the
initial frame count after the stabilization sleep, and the wait outcomes.
Starts with AE enabled (line 219) and `required = num_toggles *
frames_per_state`. -/
def toggle_ae_while_streaming (md : List (Option Int))
    (num_toggles frames_per_state initial_count : Nat)
    (outcomes : List WaitOutcome) : ToggleResult :=
  toggleGo md frames_per_state (num_toggles * frames_per_state) num_toggles true true
    initial_count 0 outcomes

/-- Wait targets consumed by `toggleGo`, in order: iteration 0 performs only
the collect wait of `frames_per_state` frames; every later iteration first
performs the stabilization wait of `frames_between_toggles` frames. -/
def goTargets (frames_per_state frames_between_toggles : Nat) :
    Nat → Bool → List Nat
  | 0, _ => []
  | r + 1, true =>
    frames_per_state :: goTargets frames_per_state frames_between_toggles r false
  | r + 1, false =>
    frames_between_toggles :: frames_per_state ::
      goTargets frames_per_state frames_between_toggles r false

/-- Compatibility of a wait-outcome trace with the `wait_for_frames`
contract, for the given targets: the frame counter is monotone, a successful
wait observed an increase of at least its target over its base, and a
timed-out wait observed less than its target. -/
def traceWf : Nat → List Nat → List WaitOutcome → Bool
  | _, [], [] => true
  | base, t :: ts, o :: os =>
    decide (base ≤ o.after)
      && (if o.ok then decide (base + t ≤ o.after) else decide (o.after < base + t))
      && traceWf o.after ts os
  | _, _ :: _, [] => false
  | _, [], _ :: _ => false


end AeToggle



/-- The mismatch predicate of the range verifiers, on a recorded metadata
entry. -/
def mismatchPred (expected_ae_state : Bool) : Option Int → Bool
  | some ae_metadata => (ae_metadata != 0) != expected_ae_state
  | none => false

namespace AeToggle

/-- A wait-outcome trace for `num_toggles = 10`, `frames_per_state = 10`,
`frames_between_toggles = 30` in which the first collect wait sees the counter
overshoot to 150 frames and the first stabilization wait then times out at 155
frames (increase 5 < 30); the remaining waits also time out without further
frames. -/
def stallTrace : List WaitOutcome :=
  WaitOutcome.mk true 150 :: WaitOutcome.mk false 155
    :: List.replicate 17 (WaitOutcome.mk false 155)

/-- A wait-outcome trace for `num_toggles = 10`, `frames_per_state = 10`,
`frames_between_toggles = 30` in which every wait succeeds exactly at its
target. -/
def okTrace : List WaitOutcome :=
  [WaitOutcome.mk true 10, WaitOutcome.mk true 40, WaitOutcome.mk true 50,
   WaitOutcome.mk true 80, WaitOutcome.mk true 90, WaitOutcome.mk true 120,
   WaitOutcome.mk true 130, WaitOutcome.mk true 160, WaitOutcome.mk true 170,
   WaitOutcome.mk true 200, WaitOutcome.mk true 210, WaitOutcome.mk true 240,
   WaitOutcome.mk true 250, WaitOutcome.mk true 280, WaitOutcome.mk true 290,
   WaitOutcome.mk true 320, WaitOutcome.mk true 330, WaitOutcome.mk true 360,
   WaitOutcome.mk true 370]

end AeToggle

/-! ## Theorems -/

/-! ### Generic list lemmas

Bridges between the loop-shaped folds of the embedded code and
filter/countP formulations used in the specifications.
-/

/-- A fold that adds 1 exactly when a boolean test on the index holds counts
the filtered elements. -/
theorem foldl_count (p : Nat → Bool) (body : Nat → Nat → Nat)
    (hbody : ∀ a i, body a i = if p i then a + 1 else a) :
    ∀ (l : List Nat) (a : Nat), l.foldl body a = a + (l.filter p).length := by
  intro l
  induction l with
  | nil => intro a; simp
  | cons i l ih =>
    intro a
    rw [List.foldl_cons, hbody]
    by_cases hp : p i
    · rw [if_pos hp, List.filter_cons_of_pos hp, ih, List.length_cons]
      omega
    · rw [if_neg hp, List.filter_cons_of_neg hp, ih]

/-- A fold that accumulates a running sum and a count over the indices passing
a boolean test computes the sum and length of the filtered, mapped list. -/
theorem foldl_sum_count (p : Nat → Bool) (g : Nat → ℚ) (body : ℚ × Nat → Nat → ℚ × Nat)
    (hbody : ∀ a i, body a i = if p i then (a.1 + g i, a.2 + 1) else a) :
    ∀ (l : List Nat) (s : ℚ) (c : Nat),
      l.foldl body (s, c) = (s + ((l.filter p).map g).sum, c + (l.filter p).length) := by
  intro l
  induction l with
  | nil => intro s c; simp
  | cons i l ih =>
    intro s c
    rw [List.foldl_cons, hbody]
    by_cases hp : p i
    · rw [if_pos hp, List.filter_cons_of_pos hp, ih, List.map_cons, List.sum_cons,
        List.length_cons]
      simp only [Prod.mk.injEq]
      constructor
      · ring
      · omega
    · rw [if_neg hp, List.filter_cons_of_neg hp, ih]

/-- A fold that always increments a second counter and increments a first
counter exactly when a boolean test holds computes the filtered length and the
total length. -/
theorem foldl_two_counts {α : Type} (p : α → Bool) (body : Nat × Nat → α → Nat × Nat)
    (hbody : ∀ a x, body a x = ((if p x then a.1 + 1 else a.1), a.2 + 1)) :
    ∀ (l : List α) (m c : Nat),
      l.foldl body (m, c) = (m + (l.filter p).length, c + l.length) := by
  intro l
  induction l with
  | nil => intro m c; simp
  | cons x l ih =>
    intro m c
    rw [List.foldl_cons, hbody]
    by_cases hp : p x
    · rw [if_pos hp, List.filter_cons_of_pos hp, ih, List.length_cons, List.length_cons]
      simp only [Prod.mk.injEq]
      exact ⟨by omega, by omega⟩
    · rw [if_neg hp, List.filter_cons_of_neg hp, ih, List.length_cons]
      simp only [Prod.mk.injEq]
      exact ⟨trivial, by omega⟩

/-- An index-range filter-and-map agrees with filtering the corresponding
slice of a list, provided the index test and the mapping agree with the list
entries on valid indices, and the test is false on the (in-window) indices
past the end of the list. -/
theorem filter_range'_map_eq {α : Type} (f : Nat → Bool) (h : Nat → α) (L : List α)
    (g : α → Bool)
    (hfg : ∀ (i : Nat) (hi : i < L.length), f i = g L[i])
    (hh : ∀ (i : Nat) (hi : i < L.length), h i = L[i]) :
    ∀ (n s : Nat), (∀ i, L.length ≤ i → i < s + n → f i = false) →
      ((List.range' s n).filter f).map h = ((L.drop s).take n).filter g := by
  intro n
  induction n with
  | zero => intro s _; simp
  | succ n ih =>
    intro s hout
    by_cases hs : s < L.length
    · rw [List.range'_succ, List.drop_eq_getElem_cons hs, List.take_succ_cons]
      have hfs := hfg s hs
      have hhs := hh s hs
      have hrest := ih (s + 1) (fun i hi hlt => hout i hi (by omega))
      by_cases hg : g L[s]
      · rw [List.filter_cons_of_pos (by rw [hfs]; exact hg),
          List.filter_cons_of_pos hg, List.map_cons, hhs, hrest]
      · rw [List.filter_cons_of_neg (by rw [hfs]; exact hg),
          List.filter_cons_of_neg hg, hrest]
    · have hdrop : L.drop s = [] := List.drop_eq_nil_of_le (by omega)
      have hnil : (List.range' s (n + 1)).filter f = [] := by
        refine List.filter_eq_nil_iff.mpr ?_
        intro a ha
        have hmem := List.mem_range'_1.mp ha
        simp [hout a (by omega) (by omega)]
      rw [hdrop, hnil]
      simp

/-- Length form of `filter_range'_map_eq`, for counting loops. -/
theorem filter_range'_length_eq {α : Type} [Inhabited α] (f : Nat → Bool) (L : List α)
    (g : α → Bool)
    (hfg : ∀ (i : Nat) (hi : i < L.length), f i = g L[i])
    (n s : Nat) (hout : ∀ i, L.length ≤ i → i < s + n → f i = false) :
    ((List.range' s n).filter f).length = ((L.drop s).take n).countP g := by
  rw [List.countP_eq_length_filter,
    ← filter_range'_map_eq f (fun i => L.getD i default) L g hfg
      (fun i hi => L.getD_eq_getElem default hi) n s hout,
    List.length_map]

theorem gapsOf_length (ts : List ℚ) : (gapsOf ts).length = ts.length - 1 := by
  simp [gapsOf]

theorem gapsOf_getElem (ts : List ℚ) (j : Nat) (hj : j < (gapsOf ts).length) :
    (gapsOf ts)[j] = ts.getD (j + 1) 0 - ts.getD j 0 := by
  have hlen : j + 1 < ts.length := by
    have := gapsOf_length ts
    omega
  simp only [gapsOf] at hj ⊢
  rw [List.getElem_zipWith, List.getElem_tail,
    List.getD_eq_getElem ts 0 hlen,
    List.getD_eq_getElem ts 0 (show j < ts.length by omega)]

/-- Filtering gap indices `i ∈ [s+1, ts.length)` by a test on the gap
`ts[i] - ts[i-1]`, and reading off those gaps, is the same as filtering the
tail `(gapsOf ts).drop s` of the gap list directly. -/
theorem filtered_gaps_eq (ts : List ℚ) (q : ℚ → Bool) (s : Nat) (hs : s + 1 ≤ ts.length) :
    ((List.range' (s + 1) (ts.length - (s + 1))).filter
        (fun i => q (ts.getD i 0 - ts.getD (i - 1) 0))).map
      (fun i => ts.getD i 0 - ts.getD (i - 1) 0)
    = ((gapsOf ts).drop s).filter q := by
  have hshift : List.range' (s + 1) (ts.length - (s + 1))
      = (List.range' s (ts.length - (s + 1))).map (fun j => 1 + j) := by
    rw [List.map_add_range']
    congr 1
    omega
  rw [hshift, List.filter_map, List.map_map]
  have harg : ∀ j : Nat, ts.getD (1 + j) 0 - ts.getD (1 + j - 1) 0
      = ts.getD (j + 1) 0 - ts.getD j 0 := by
    intro j
    have h1 : 1 + j = j + 1 := by omega
    have h2 : 1 + j - 1 = j := by omega
    rw [h2, h1]
  have hmain := filter_range'_map_eq
    (fun j => q (ts.getD (1 + j) 0 - ts.getD (1 + j - 1) 0))
    (fun j => ts.getD (1 + j) 0 - ts.getD (1 + j - 1) 0)
    (gapsOf ts) q
    (by
      intro j hj
      show q (ts.getD (1 + j) 0 - ts.getD (1 + j - 1) 0) = q ((gapsOf ts)[j])
      rw [gapsOf_getElem ts j hj, harg j])
    (by
      intro j hj
      show ts.getD (1 + j) 0 - ts.getD (1 + j - 1) 0 = (gapsOf ts)[j]
      rw [gapsOf_getElem ts j hj, harg j])
    (ts.length - (s + 1)) s
    (by
      intro i hi hlt
      rw [gapsOf_length] at hi
      omega)
  have htake : ((gapsOf ts).drop s).take (ts.length - (s + 1)) = (gapsOf ts).drop s := by
    apply List.take_of_length_le
    rw [List.length_drop, gapsOf_length]
    omega
  rw [htake] at hmain
  exact hmain

namespace AeToggle

/-- When every wait in a well-formed trace succeeds, the loop runs to
completion: the final frame count grew by at least `frames_per_state` per
iteration, and the reported success flag is exactly the final
`required ≤ frame_count` comparison. -/
theorem toggleGo_all_ok (md : List (Option Int)) (fps fbt req : Nat) :
    ∀ (r : Nat) (first ae : Bool) (count errs : Nat) (outs : List WaitOutcome),
      traceWf count (goTargets fps fbt r first) outs = true →
      (∀ o ∈ outs, o.ok = true) →
      count + r * fps ≤ (toggleGo md fps req r first ae count errs outs).total_frames
        ∧ (toggleGo md fps req r first ae count errs outs).success
          = decide (req ≤ (toggleGo md fps req r first ae count errs outs).total_frames) := by
  intro r
  induction r with
  | zero =>
    intro first ae count errs outs hwf hok
    cases outs with
    | nil => simp [toggleGo]
    | cons o os => simp [goTargets, traceWf] at hwf
  | succ r ih =>
    intro first ae count errs outs hwf hok
    cases first with
    | true =>
      cases outs with
      | nil => simp [goTargets, traceWf] at hwf
      | cons o os =>
        simp only [goTargets, traceWf, Bool.and_eq_true, decide_eq_true_eq] at hwf
        obtain ⟨⟨hbase, hcond⟩, hrest⟩ := hwf
        have ho : o.ok = true := hok o (List.mem_cons_self o os)
        rw [ho, if_pos rfl, decide_eq_true_eq] at hcond
        have hos : ∀ x ∈ os, x.ok = true := fun x hx => hok x (List.mem_cons_of_mem o hx)
        have hih := ih false ae o.after
          (errs + verify_ae_metadata md count o.after ae) os hrest hos
        simp only [toggleGo, if_pos rfl, ho, if_true]
        refine ⟨?_, hih.2⟩
        calc count + (r + 1) * fps = (count + fps) + r * fps := by ring
          _ ≤ o.after + r * fps := Nat.add_le_add_right hcond _
          _ ≤ _ := hih.1
    | false =>
      cases outs with
      | nil => simp [goTargets, traceWf] at hwf
      | cons o1 rest1 =>
        simp only [goTargets, traceWf, Bool.and_eq_true, decide_eq_true_eq] at hwf
        obtain ⟨⟨hbase1, hcond1⟩, hwf1⟩ := hwf
        have ho1 : o1.ok = true := hok o1 (List.mem_cons_self o1 rest1)
        rw [ho1, if_pos rfl, decide_eq_true_eq] at hcond1
        cases rest1 with
        | nil => simp [traceWf] at hwf1
        | cons o2 rest2 =>
          simp only [traceWf, Bool.and_eq_true, decide_eq_true_eq] at hwf1
          obtain ⟨⟨hbase2, hcond2⟩, hrest⟩ := hwf1
          have ho2 : o2.ok = true :=
            hok o2 (List.mem_cons_of_mem o1 (List.mem_cons_self o2 rest2))
          rw [ho2, if_pos rfl, decide_eq_true_eq] at hcond2
          have hos : ∀ x ∈ rest2, x.ok = true := fun x hx =>
            hok x (List.mem_cons_of_mem o1 (List.mem_cons_of_mem o2 hx))
          have hih := ih false (!ae) o2.after
            (errs + verify_ae_metadata md o1.after o2.after (!ae)) rest2 hrest hos
          simp only [toggleGo, Bool.false_eq_true, if_false, ho1, ho2, if_true]
          refine ⟨?_, hih.2⟩
          have hchain : count + fps ≤ o2.after := by omega
          calc count + (r + 1) * fps = (count + fps) + r * fps := by ring
            _ ≤ o2.after + r * fps := Nat.add_le_add_right hchain _
            _ ≤ _ := hih.1

/-- In a well-formed trace, a reported success implies that every wait in the
trace succeeded: any timed-out wait makes the loop return `False`
immediately. -/
theorem toggleGo_success_all_ok (md : List (Option Int)) (fps fbt req : Nat) :
    ∀ (r : Nat) (first ae : Bool) (count errs : Nat) (outs : List WaitOutcome),
      traceWf count (goTargets fps fbt r first) outs = true →
      (toggleGo md fps req r first ae count errs outs).success = true →
      ∀ o ∈ outs, o.ok = true := by
  intro r
  induction r with
  | zero =>
    intro first ae count errs outs hwf _hsucc
    cases outs with
    | nil => intro o ho; exact absurd ho (List.not_mem_nil o)
    | cons o os => simp [goTargets, traceWf] at hwf
  | succ r ih =>
    intro first ae count errs outs hwf hsucc
    cases first with
    | true =>
      cases outs with
      | nil => simp [goTargets, traceWf] at hwf
      | cons o os =>
        simp only [goTargets, traceWf, Bool.and_eq_true, decide_eq_true_eq] at hwf
        obtain ⟨⟨hbase, hcond⟩, hrest⟩ := hwf
        by_cases ho : o.ok = true
        · simp only [toggleGo, ho, if_true] at hsucc
          intro x hx
          rcases List.mem_cons.mp hx with hx | hx
          · rw [hx]; exact ho
          · exact ih false ae o.after _ os hrest hsucc x hx
        · simp [toggleGo, ho] at hsucc
    | false =>
      cases outs with
      | nil => simp [goTargets, traceWf] at hwf
      | cons o1 rest1 =>
        simp only [goTargets, traceWf, Bool.and_eq_true, decide_eq_true_eq] at hwf
        obtain ⟨⟨hbase1, hcond1⟩, hwf1⟩ := hwf
        by_cases ho1 : o1.ok = true
        · cases rest1 with
          | nil => simp [traceWf] at hwf1
          | cons o2 rest2 =>
            simp only [traceWf, Bool.and_eq_true, decide_eq_true_eq] at hwf1
            obtain ⟨⟨hbase2, hcond2⟩, hrest⟩ := hwf1
            by_cases ho2 : o2.ok = true
            · simp only [toggleGo, ho1, ho2, if_true, Bool.false_eq_true,
                if_false] at hsucc
              intro x hx
              rcases List.mem_cons.mp hx with hx | hx
              · rw [hx]; exact ho1
              · rcases List.mem_cons.mp hx with hx | hx
                · rw [hx]; exact ho2
                · exact ih false (!ae) o2.after _ rest2 hrest hsucc x hx
            · simp [toggleGo, ho1, ho2] at hsucc
        · simp [toggleGo, ho1] at hsucc

end AeToggle

/-! ### Characterizations of the verification and timing loops -/


/-- The index-loop of the range verifier counts exactly the mismatching,
present entries of the slice `[start_frame, end_frame)` of the metadata
log. -/
theorem verify_ae_metadata_eq_countP (md : List (Option Int)) (s e : Nat) (exp : Bool) :
    AeToggle.verify_ae_metadata md s e exp
      = ((md.drop s).take (e - s)).countP (mismatchPred exp) := by
  have hbody : ∀ (a i : Nat),
      (if i < md.length then
        match md.getD i none with
        | some ae_metadata =>
          if (ae_metadata != 0) != exp then a + 1 else a
        | none => a
      else a)
      = if (decide (i < md.length) && mismatchPred exp (md.getD i none)) then a + 1
        else a := by
    intro a i
    by_cases hi : i < md.length
    · cases hmd : md.getD i none with
      | none => simp [hi, hmd, mismatchPred]
      | some v =>
        by_cases hv : ((v != 0) != exp) = true
        · simp [hi, hmd, mismatchPred, hv]
        · simp [hi, hmd, mismatchPred, hv]
    · simp [hi]
  rw [AeToggle.verify_ae_metadata, foldl_count _ _ hbody, Nat.zero_add]
  exact filter_range'_length_eq _ md (mismatchPred exp)
    (fun i hi => by simp [hi, List.getD_eq_getElem md none hi])
    (e - s) s
    (fun i hi _ => by simp [Nat.not_lt.mpr hi])

/-- The two counters of the steady-state helper loop: `frames_checked` is the
length of the examined prefix, and `metadata_matches` counts the present,
matching entries. -/
theorem verify_ae_metadata_counts_eq (l : List (Option Int)) (exp : Bool) (n : Nat) :
    AeMetadata.verify_ae_metadata_counts l exp n
      = ((l.take n).countP (fun m => m.elim false (fun v => (v != 0) == exp)),
         (l.take n).length) := by
  have hbody : ∀ (a : Nat × Nat) (m : Option Int),
      (match m with
        | some ae_metadata =>
          if ((ae_metadata != 0) == exp) then (a.1 + 1, a.2 + 1)
          else (a.1, a.2 + 1)
        | none => (a.1, a.2 + 1))
      = ((if m.elim false (fun v => (v != 0) == exp) then a.1 + 1 else a.1), a.2 + 1) := by
    intro a m
    cases m with
    | none => simp
    | some v =>
      show (if ((v != 0) == exp) = true then (a.1 + 1, a.2 + 1) else (a.1, a.2 + 1))
        = ((if ((v != 0) == exp) = true then a.1 + 1 else a.1), a.2 + 1)
      by_cases hv : ((v != 0) == exp) = true
      · rw [if_pos hv, if_pos hv]
      · rw [if_neg hv, if_neg hv]
  rw [AeMetadata.verify_ae_metadata_counts, foldl_two_counts _ _ hbody,
    List.countP_eq_length_filter]
  simp

/-- `count_gap_spikes` counts the gaps, from gap index `max(1, s+1) - 1` on,
strictly above the threshold. -/
theorem count_gap_spikes_eq (ts : List ℚ) (T pct : ℚ) (s : Nat) :
    AeToggle.count_gap_spikes ts T pct s
      = ((gapsOf ts).drop (max 1 (s + 1) - 1)).countP
          (fun gp => decide (T * (1 + pct / 100) < gp)) := by
  have hmax : max 1 (s + 1) = s + 1 := by omega
  have hmax1 : max 1 (s + 1) - 1 = s := by omega
  rw [hmax1]
  set thr := T * (1 + pct / 100) with hthr
  have hgaps0 : (gapsOf ts).length = ts.length - 1 := gapsOf_length ts
  by_cases hlen : 1 < ts.length
  · have hbody : ∀ (a i : Nat),
        (if ts.getD i 0 - ts.getD (i - 1) 0 > thr then a + 1 else a)
        = if decide (thr < ts.getD i 0 - ts.getD (i - 1) 0) then a + 1 else a := by
      intro a i
      by_cases h : thr < ts.getD i 0 - ts.getD (i - 1) 0
      · simp [h]
      · simp [h]
    rw [AeToggle.count_gap_spikes]
    simp only [hmax, if_pos hlen]
    rw [foldl_count _ _ hbody, Nat.zero_add]
    by_cases hs : s + 1 ≤ ts.length
    · have hmap := filtered_gaps_eq ts (fun gp => decide (thr < gp)) s hs
      rw [List.countP_eq_length_filter, ← hmap, List.length_map]
    · have hn : ts.length - (s + 1) = 0 := by omega
      have hdrop : (gapsOf ts).drop s = [] :=
        List.drop_eq_nil_of_le (by omega)
      rw [hn, hdrop]
      simp
  · rw [AeToggle.count_gap_spikes]
    simp only [hmax, if_neg hlen]
    have hdrop : (gapsOf ts).drop s = [] :=
      List.drop_eq_nil_of_le (by omega)
    rw [hdrop]
    simp

/-- The accumulation loop of the filtered average, with a threshold present:
sum and count of the gaps surviving the spike filter. -/
theorem average_accum_some_eq (ts : List ℚ) (t : ℚ) (s : Nat) (hs : s + 1 ≤ ts.length) :
    AeToggle.average_accum ts (some t) (List.range' (s + 1) (ts.length - (s + 1)))
      = ((((gapsOf ts).drop s).filter fun gp => !decide (t < gp)).sum,
         (((gapsOf ts).drop s).filter fun gp => !decide (t < gp)).length) := by
  have hbody : ∀ (a : ℚ × Nat) (i : Nat),
      (let gap := ts.getD i 0 - ts.getD (i - 1) 0
       match (some t : Option ℚ) with
       | some t => if gap > t then a else (a.1 + gap, a.2 + 1)
       | none => (a.1 + gap, a.2 + 1))
      = if (!decide (t < ts.getD i 0 - ts.getD (i - 1) 0)) then
          (a.1 + (ts.getD i 0 - ts.getD (i - 1) 0), a.2 + 1)
        else a := by
    intro a i
    show (if ts.getD i 0 - ts.getD (i - 1) 0 > t then a
          else (a.1 + (ts.getD i 0 - ts.getD (i - 1) 0), a.2 + 1))
        = if (!decide (t < ts.getD i 0 - ts.getD (i - 1) 0)) = true then
            (a.1 + (ts.getD i 0 - ts.getD (i - 1) 0), a.2 + 1)
          else a
    by_cases h : t < ts.getD i 0 - ts.getD (i - 1) 0
    · rw [if_pos h, if_neg (by rw [decide_eq_true h]; simp)]
    · rw [if_neg h, if_pos (by rw [decide_eq_false h]; simp)]
  rw [AeToggle.average_accum, foldl_sum_count _ _ _ hbody]
  have hmap := filtered_gaps_eq ts (fun gp => !decide (t < gp)) s hs
  have hlen := congrArg List.length hmap
  rw [List.length_map] at hlen
  rw [hmap, hlen]
  simp

/-- The accumulation loop of the plain average (no threshold): sum and count
of all gaps in range. -/
theorem average_accum_none_eq (ts : List ℚ) (s : Nat) (hs : s + 1 ≤ ts.length) :
    AeToggle.average_accum ts none (List.range' (s + 1) (ts.length - (s + 1)))
      = (((gapsOf ts).drop s).sum, ((gapsOf ts).drop s).length) := by
  have hbody : ∀ (a : ℚ × Nat) (i : Nat),
      (let gap := ts.getD i 0 - ts.getD (i - 1) 0
       match (none : Option ℚ) with
       | some t => if gap > t then a else (a.1 + gap, a.2 + 1)
       | none => (a.1 + gap, a.2 + 1))
      = if (true : Bool) then
          (a.1 + (ts.getD i 0 - ts.getD (i - 1) 0), a.2 + 1)
        else a := by
    intro a i
    simp
  rw [AeToggle.average_accum, foldl_sum_count _ _ _ hbody]
  have hmap := filtered_gaps_eq ts (fun _ => true) s hs
  simp only [List.filter_true] at hmap
  have hlen := congrArg List.length hmap
  rw [List.length_map] at hlen
  simp only [List.filter_true]
  rw [hmap, hlen]
  simp

/-! ### Frame-barrier lemmas -/

namespace AeToggle

/-- Appending further observations after the poll sequence: once the loop has
decided, later observations are irrelevant; if the sequence ran out first, the
wait continues with the remaining observations unchanged. -/
theorem wait_for_frames_append (b n : Nat) (t : ℚ) (polls more : List (Nat × ℚ)) :
    wait_for_frames b n t (polls ++ more)
      = match wait_for_frames b n t polls with
        | some r => some r
        | none => wait_for_frames b n t more := by
  induction polls with
  | nil => simp [wait_for_frames]
  | cons p rest ih =>
    obtain ⟨c, e⟩ := p
    simp only [List.cons_append, wait_for_frames]
    by_cases h1 : c - b < n
    · by_cases h2 : e > t
      · simp [h1, h2]
      · simp [h1, h2, ih]
    · simp [h1]

/-- The wait decision is invariant under shifting the counter by a constant:
only the increase over the captured base matters, not the absolute count. -/
theorem wait_for_frames_shift (b n d : Nat) (t : ℚ) (polls : List (Nat × ℚ)) :
    wait_for_frames (b + d) n t (polls.map fun pr => (pr.1 + d, pr.2))
      = wait_for_frames b n t polls := by
  induction polls with
  | nil => rfl
  | cons p rest ih =>
    obtain ⟨c, e⟩ := p
    simp only [List.map_cons, wait_for_frames]
    have hsub : c + d - (b + d) = c - b := by omega
    rw [hsub, ih]

/-- The wait returns true exactly when some observation sees the counter at
least `n` above the base, with every earlier observation still short of the
target and not yet past the timeout. -/
theorem wait_for_frames_true_iff (b n : Nat) (t : ℚ) (polls : List (Nat × ℚ)) :
    wait_for_frames b n t polls = some true
      ↔ ∃ k, k < polls.length ∧ n ≤ (polls.getD k (0, 0)).1 - b
          ∧ ∀ j, j < k → (polls.getD j (0, 0)).1 - b < n ∧ (polls.getD j (0, 0)).2 ≤ t := by
  induction polls with
  | nil => simp [wait_for_frames]
  | cons p rest ih =>
    obtain ⟨c, e⟩ := p
    simp only [wait_for_frames]
    by_cases h1 : c - b < n
    · by_cases h2 : e > t
      · rw [if_pos h1, if_pos h2]
        constructor
        · intro h
          exact absurd h (by simp)
        · rintro ⟨k, hk, hn, hall⟩
          cases k with
          | zero =>
            rw [List.getD_cons_zero] at hn
            omega
          | succ k =>
            have he := (hall 0 (Nat.succ_pos k)).2
            rw [List.getD_cons_zero] at he
            exact absurd h2 (not_lt.mpr he)
      · rw [if_pos h1, if_neg h2, ih]
        constructor
        · rintro ⟨k, hk, hn, hall⟩
          refine ⟨k + 1, by simpa using hk, by simpa using hn, ?_⟩
          intro j hj
          cases j with
          | zero =>
            rw [List.getD_cons_zero]
            exact ⟨h1, le_of_not_lt h2⟩
          | succ j =>
            rw [List.getD_cons_succ]
            exact hall j (by omega)
        · rintro ⟨k, hk, hn, hall⟩
          cases k with
          | zero =>
            rw [List.getD_cons_zero] at hn
            omega
          | succ k =>
            refine ⟨k, by simpa using hk, by simpa using hn, ?_⟩
            intro j hj
            have hj1 := hall (j + 1) (by omega)
            rw [List.getD_cons_succ] at hj1
            exact hj1
    · rw [if_neg h1]
      constructor
      · intro _
        refine ⟨0, by simp, ?_, fun j hj => absurd hj (Nat.not_lt_zero j)⟩
        rw [List.getD_cons_zero]
        omega
      · intro _
        rfl

end AeToggle

/-! ### Frame-callback bookkeeping -/

/-- Lengths after folding a delivery sequence into a toggle-test context. -/
theorem AeToggle.toggle_foldl_callback_lengths
    (events : List (ℚ × Option Int)) :
    ∀ ctx : AeToggle.StreamingContext,
      ((events.foldl (fun c e => AeToggle.frame_callback c e.1 e.2) ctx).frame_count
          = ctx.frame_count + events.length)
        ∧ ((events.foldl (fun c e => AeToggle.frame_callback c e.1 e.2)
              ctx).frame_timestamps.length
          = ctx.frame_timestamps.length + events.length)
        ∧ ((events.foldl (fun c e => AeToggle.frame_callback c e.1 e.2)
              ctx).frame_ae_metadata.length
          = ctx.frame_ae_metadata.length + events.length) := by
  induction events with
  | nil => intro ctx; simp
  | cons ev rest ih =>
    intro ctx
    obtain ⟨now, ae⟩ := ev
    have hstep : ∀ ctx' : AeToggle.StreamingContext,
        (AeToggle.frame_callback ctx' now ae).frame_count = ctx'.frame_count + 1
          ∧ (AeToggle.frame_callback ctx' now ae).frame_timestamps.length
            = ctx'.frame_timestamps.length + 1
          ∧ (AeToggle.frame_callback ctx' now ae).frame_ae_metadata.length
            = ctx'.frame_ae_metadata.length + 1 := by
      intro ctx'
      cases ae with
      | some v => simp [AeToggle.frame_callback]
      | none => simp [AeToggle.frame_callback]
    rw [List.foldl_cons]
    have hr := ih (AeToggle.frame_callback ctx now ae)
    have hs := hstep ctx
    refine ⟨?_, ?_, ?_⟩
    · rw [hr.1, hs.1, List.length_cons]; omega
    · rw [hr.2.1, hs.2.1, List.length_cons]; omega
    · rw [hr.2.2, hs.2.2, List.length_cons]; omega

/-- Lengths after folding a delivery sequence into a metadata-test context. -/
theorem AeMetadata.metadata_foldl_callback_lengths
    (events : List (Option Int)) :
    ∀ ctx : AeMetadata.StreamingContext,
      ((events.foldl (fun c e => AeMetadata.frame_callback c e) ctx).frame_count
          = ctx.frame_count + events.length)
        ∧ ((events.foldl (fun c e => AeMetadata.frame_callback c e)
              ctx).frame_ae_metadata.length
          = ctx.frame_ae_metadata.length + events.length) := by
  induction events with
  | nil => intro ctx; simp
  | cons ae rest ih =>
    intro ctx
    have hstep : ∀ ctx' : AeMetadata.StreamingContext,
        (AeMetadata.frame_callback ctx' ae).frame_count = ctx'.frame_count + 1
          ∧ (AeMetadata.frame_callback ctx' ae).frame_ae_metadata.length
            = ctx'.frame_ae_metadata.length + 1 := by
      intro ctx'
      cases ae with
      | some v => simp [AeMetadata.frame_callback]
      | none => simp [AeMetadata.frame_callback]
    rw [List.foldl_cons]
    have hr := ih (AeMetadata.frame_callback ctx ae)
    have hs := hstep ctx
    refine ⟨?_, ?_⟩
    · rw [hr.1, hs.1, List.length_cons]; omega
    · rw [hr.2, hs.2, List.length_cons]; omega

/-! ### Filtered-average characterization -/

/-- With a nominal frame time supplied, the filtered average is the mean of
the gaps surviving the spike filter, and `0` when no gap survives. -/
theorem calculate_average_some_eq (ts : List ℚ) (s : Nat) (T pct : ℚ) :
    AeToggle.calculate_average_frame_time ts s (some T) pct
      = (if (((gapsOf ts).drop s).filter
              (fun gp => !decide (T * (1 + pct / 100) < gp))).length = 0 then 0
         else (((gapsOf ts).drop s).filter
                (fun gp => !decide (T * (1 + pct / 100) < gp))).sum
           / ((((gapsOf ts).drop s).filter
                (fun gp => !decide (T * (1 + pct / 100) < gp))).length : ℚ)) := by
  by_cases hlen : ts.length < 2
  · have hgaps : gapsOf ts = [] := by
      rw [← List.length_eq_zero, gapsOf_length]
      omega
    rw [AeToggle.calculate_average_frame_time, if_pos hlen, hgaps]
    simp
  · rw [AeToggle.calculate_average_frame_time, if_neg hlen]
    have hmax : max 1 (s + 1) = s + 1 := by omega
    simp only [hmax, Option.map]
    by_cases hs : s + 1 ≤ ts.length
    · rw [average_accum_some_eq ts (T * (1 + pct / 100)) s hs]
      dsimp only
      by_cases hk : (((gapsOf ts).drop s).filter
          (fun gp => !decide (T * (1 + pct / 100) < gp))).length = 0
      · rw [if_neg (by omega), if_pos hk]
      · rw [if_pos (by omega), if_neg hk]
    · have hn : ts.length - (s + 1) = 0 := by omega
      have hdrop : (gapsOf ts).drop s = [] := by
        apply List.drop_eq_nil_of_le
        rw [gapsOf_length]
        omega
      rw [hn, hdrop]
      simp [AeToggle.average_accum]

/-- Without a nominal frame time, the average is the mean of all gaps in
range, and `0` when there are none. -/
theorem calculate_average_none_eq (ts : List ℚ) (s : Nat) (pct : ℚ) :
    AeToggle.calculate_average_frame_time ts s none pct
      = (if ((gapsOf ts).drop s).length = 0 then 0
         else ((gapsOf ts).drop s).sum / ((((gapsOf ts).drop s).length : Nat) : ℚ)) := by
  by_cases hlen : ts.length < 2
  · have hgaps : gapsOf ts = [] := by
      rw [← List.length_eq_zero, gapsOf_length]
      omega
    rw [AeToggle.calculate_average_frame_time, if_pos hlen, hgaps]
    simp
  · rw [AeToggle.calculate_average_frame_time, if_neg hlen]
    have hmax : max 1 (s + 1) = s + 1 := by omega
    simp only [hmax, Option.map]
    by_cases hs : s + 1 ≤ ts.length
    · rw [average_accum_none_eq ts s hs]
      dsimp only
      by_cases hk : ((gapsOf ts).drop s).length = 0
      · rw [if_neg (by omega), if_pos hk]
      · rw [if_pos (by omega), if_neg hk]
    · have hn : ts.length - (s + 1) = 0 := by omega
      have hdrop : (gapsOf ts).drop s = [] := by
        apply List.drop_eq_nil_of_le
        rw [gapsOf_length]
        omega
      rw [hn, hdrop]
      simp [AeToggle.average_accum]

/-! ## Claims -/

/-- Claim C1: for every metadata log, index range `[start_frame, end_frame)`
and expected boolean, the range verifier returns exactly the number of
in-range events whose metadata is present and whose derived boolean
(`metadata != 0`) differs from the expected state; indices at or past the end
of the log and absent (`None`) metadata contribute nothing — the count is a
pure function of the slice of the log.  On the 5-event log
`[true, true, None, false, true]` with `expected = true` the mismatch count
is exactly 1. -/
theorem claim_C1 (md : List (Option Int)) (s e : Nat) (exp : Bool) :
    (AeToggle.verify_ae_metadata md s e exp
        = ((md.drop s).take (e - s)).countP (mismatchPred exp)
      ∧ AeMetadata.verify_ae_metadata_from_context md s e exp
        = AeToggle.verify_ae_metadata md s e exp)
    ∧ AeToggle.verify_ae_metadata [some 1, some 1, none, some 0, some 1] 0 5 true
        = 1 := by
  refine ⟨⟨verify_ae_metadata_eq_countP md s e exp, rfl⟩, by decide⟩

/-- Claim C2, counterexample: in the steady-state helper
`verify_ae_metadata(depth_sensor, ...)`, a frame with absent AUTO_EXPOSURE
metadata is counted in `frames_checked` but never in `metadata_matches`, so
its presence flips the `matches == total` verdict of the scenario: with only
the frame `some 1` and `expected = true` the counts agree, while appending an
absent-metadata frame makes them disagree. -/
theorem claim_C2_counterexample :
    ((AeMetadata.verify_ae_metadata_counts [some 1] true 10).1
        = (AeMetadata.verify_ae_metadata_counts [some 1] true 10).2)
    ∧ ((AeMetadata.verify_ae_metadata_counts [some 1, none] true 10).1
        ≠ (AeMetadata.verify_ae_metadata_counts [some 1, none] true 10).2) := by
  decide

/-- Claim C2, amended: in the range-based verifiers a frame with absent
metadata is excluded (the mismatch count is a function of the present
entries only), but in the steady-state helper an absent-metadata frame is
counted in `frames_checked` and never in `metadata_matches`, so the
`matches == total` verdict holds exactly when every examined frame has
present, matching metadata — an absent-metadata frame fails the scenario. -/
theorem claim_C2_amended (l md : List (Option Int)) (exp : Bool) (n s e : Nat) :
    ((AeMetadata.verify_ae_metadata_counts l exp n).2 = (l.take n).length
      ∧ ((AeMetadata.verify_ae_metadata_counts l exp n).1
            = (AeMetadata.verify_ae_metadata_counts l exp n).2
          ↔ ∀ m ∈ l.take n, ∃ v, m = some v ∧ ((v != 0) = exp)))
    ∧ AeMetadata.verify_ae_metadata_from_context md s e exp
        = (((md.drop s).take (e - s)).filterMap id).countP
            (fun v => (v != 0) != exp) := by
  refine ⟨⟨?_, ?_⟩, ?_⟩
  · rw [verify_ae_metadata_counts_eq]
  · rw [verify_ae_metadata_counts_eq]
    dsimp only
    rw [List.countP_eq_length]
    constructor
    · intro hall m hm
      have hp := hall m hm
      cases m with
      | none => simp at hp
      | some v => exact ⟨v, rfl, by simpa using hp⟩
    · intro hall m hm
      obtain ⟨v, rfl, hv⟩ := hall m hm
      simpa using hv
  · rw [show AeMetadata.verify_ae_metadata_from_context md s e exp
          = AeToggle.verify_ae_metadata md s e exp from rfl,
      verify_ae_metadata_eq_countP, List.countP_filterMap]
    apply List.countP_congr
    intro m _
    cases m <;> simp [mismatchPred]

/-- Claim C3, counterexample: with `num_toggles = 10` and
`frames_per_state = 10`, a run satisfying the wait contract in which the
first collect wait overshoots to 150 frames and a later stabilization wait
times out returns `success = false` while the total frame count (155) is
already at least `num_toggles * frames_per_state = 100` — so success is not
equivalent to `total_frames >= num_toggles * frames_per_state`. -/
theorem claim_C3_counterexample :
    AeToggle.traceWf 0 (AeToggle.goTargets 10 30 10 true) AeToggle.stallTrace = true
    ∧ (AeToggle.toggle_ae_while_streaming [] 10 10 0 AeToggle.stallTrace).success
        = false
    ∧ 10 * 10
        ≤ (AeToggle.toggle_ae_while_streaming [] 10 10 0 AeToggle.stallTrace).total_frames := by
  decide

/-- Claim C3, amended: for every run compatible with the wait contract,
`toggle_ae_while_streaming` reports `success = true` if and only if every
barrier wait succeeded; in that case the total number of frames observed is
at least `num_toggles * frames_per_state` (each of the `num_toggles` collect
waits contributes at least `frames_per_state` frames).  In particular a run
in which every wait succeeds yields `success = true` and, for
`num_toggles = 10`, `frames_per_state = 10`, at least 100 frames. -/
theorem claim_C3_amended (md : List (Option Int))
    (num_toggles frames_per_state frames_between_toggles initial_count : Nat)
    (outcomes : List AeToggle.WaitOutcome)
    (hwf : AeToggle.traceWf initial_count
      (AeToggle.goTargets frames_per_state frames_between_toggles num_toggles true)
      outcomes = true) :
    ((AeToggle.toggle_ae_while_streaming md num_toggles frames_per_state
          initial_count outcomes).success = true
        ↔ ∀ o ∈ outcomes, o.ok = true)
      ∧ ((AeToggle.toggle_ae_while_streaming md num_toggles frames_per_state
            initial_count outcomes).success = true
          → num_toggles * frames_per_state
            ≤ (AeToggle.toggle_ae_while_streaming md num_toggles frames_per_state
                initial_count outcomes).total_frames) := by
  have hiff : (AeToggle.toggle_ae_while_streaming md num_toggles frames_per_state
      initial_count outcomes).success = true ↔ ∀ o ∈ outcomes, o.ok = true := by
    constructor
    · intro hsucc
      exact AeToggle.toggleGo_success_all_ok md frames_per_state
        frames_between_toggles (num_toggles * frames_per_state) num_toggles true true
        initial_count 0 outcomes hwf hsucc
    · intro hok
      have h := AeToggle.toggleGo_all_ok md frames_per_state frames_between_toggles
        (num_toggles * frames_per_state) num_toggles true true
        initial_count 0 outcomes hwf hok
      rw [AeToggle.toggle_ae_while_streaming, h.2, decide_eq_true_eq]
      exact le_trans (Nat.le_add_left _ _) h.1
  refine ⟨hiff, ?_⟩
  intro hsucc
  have hok := hiff.mp hsucc
  have h := AeToggle.toggleGo_all_ok md frames_per_state frames_between_toggles
    (num_toggles * frames_per_state) num_toggles true true
    initial_count 0 outcomes hwf hok
  exact le_trans (Nat.le_add_left _ _) h.1

/-- Claim C3, witness: the all-waits-succeed trace for `num_toggles = 10`,
`frames_per_state = 10` yields `success = true` and at least 100 frames. -/
theorem claim_C3_amended_witness :
    (AeToggle.toggle_ae_while_streaming [] 10 10 0 AeToggle.okTrace).success = true
    ∧ 10 * 10
        ≤ (AeToggle.toggle_ae_while_streaming [] 10 10 0 AeToggle.okTrace).total_frames := by
  have h := claim_C3_amended [] 10 10 30 0 AeToggle.okTrace (by decide)
  have hsucc : (AeToggle.toggle_ae_while_streaming [] 10 10 0
      AeToggle.okTrace).success = true := h.1.mpr (by decide)
  exact ⟨hsucc, h.2 hsucc⟩

/-- Claim C4: the frame barrier captures the count at call time as a base and
returns true exactly when some poll observes the count at least `n` above the
base with all earlier polls short of the target and within the timeout; the
decision is invariant under shifting the absolute count, and once decided it
is independent of further growth of the observation sequence.  A monitor
pre-seeded to count 5 with `n = 3` succeeds as soon as the count reaches 8,
and a run whose polls exceed the timeout before the target returns false. -/
theorem claim_C4 (b n d : Nat) (t : ℚ) (polls more : List (Nat × ℚ)) :
    (AeToggle.wait_for_frames b n t polls = some true
      ↔ ∃ k, k < polls.length ∧ n ≤ (polls.getD k (0, 0)).1 - b
          ∧ ∀ j, j < k → (polls.getD j (0, 0)).1 - b < n
              ∧ (polls.getD j (0, 0)).2 ≤ t)
    ∧ (AeToggle.wait_for_frames (b + d) n t (polls.map fun pr => (pr.1 + d, pr.2))
        = AeToggle.wait_for_frames b n t polls)
    ∧ (AeToggle.wait_for_frames b n t (polls ++ more)
        = match AeToggle.wait_for_frames b n t polls with
          | some r => some r
          | none => AeToggle.wait_for_frames b n t more)
    ∧ AeToggle.wait_for_frames 5 3 10 [(5, 1), (6, 2), (8, 3)] = some true
    ∧ AeToggle.wait_for_frames 5 3 10 [(5, 1), (6, 5), (7, 11)] = some false := by
  refine ⟨AeToggle.wait_for_frames_true_iff b n t polls,
    AeToggle.wait_for_frames_shift b n d t polls,
    AeToggle.wait_for_frames_append b n t polls more, ?_, ?_⟩
  · norm_num [AeToggle.wait_for_frames]
  · norm_num [AeToggle.wait_for_frames]

/-- Claim C5: `count_gap_spikes` returns the number of gaps
`ts[i] - ts[i-1]`, for `i` from `max(1, s+1)` to `len(ts) - 1`, strictly
greater than `T * (1 + pct/100)`; on `[0, 10, 20, 35, 40]` with `T = 10`,
`pct = 10` the gaps are `[10, 10, 15, 5]`, the threshold is 11, and exactly
the 15ms gap counts. -/
theorem claim_C5 (ts : List ℚ) (T pct : ℚ) (s : Nat) :
    AeToggle.count_gap_spikes ts T pct s
      = ((gapsOf ts).drop (max 1 (s + 1) - 1)).countP
          (fun gp => decide (T * (1 + pct / 100) < gp))
    ∧ gapsOf [0, 10, 20, 35, 40] = [10, 10, 15, 5]
    ∧ AeToggle.count_gap_spikes [0, 10, 20, 35, 40] 10 10 0 = 1 := by
  refine ⟨count_gap_spikes_eq ts T pct s, ?_, ?_⟩
  · norm_num [gapsOf]
  · norm_num [AeToggle.count_gap_spikes, List.range']

/-- Claim C6: `calculate_average_frame_time` returns the mean of the gaps
from index `max(1, s+1)` on, excluding from both sum and count every gap
strictly greater than `T * (1 + pct/100)` when `T` is supplied, and returns
the defined sentinel `0` when fewer than 2 usable points remain (fewer than 2
timestamps, or every gap excluded).  For gaps `[10, 10, 15, 5]` with
threshold 11 the result is `(10 + 10 + 5) / 3`. -/
theorem claim_C6 (ts : List ℚ) (s : Nat) (T pct : ℚ) :
    (AeToggle.calculate_average_frame_time ts s (some T) pct
      = (if (((gapsOf ts).drop (max 1 (s + 1) - 1)).filter
              (fun gp => !decide (T * (1 + pct / 100) < gp))).length = 0 then 0
         else (((gapsOf ts).drop (max 1 (s + 1) - 1)).filter
                (fun gp => !decide (T * (1 + pct / 100) < gp))).sum
           / ((((gapsOf ts).drop (max 1 (s + 1) - 1)).filter
                (fun gp => !decide (T * (1 + pct / 100) < gp))).length : ℚ)))
    ∧ (AeToggle.calculate_average_frame_time ts s none pct
      = (if ((gapsOf ts).drop (max 1 (s + 1) - 1)).length = 0 then 0
         else ((gapsOf ts).drop (max 1 (s + 1) - 1)).sum
           / (((gapsOf ts).drop (max 1 (s + 1) - 1)).length : ℚ)))
    ∧ AeToggle.calculate_average_frame_time [0, 10, 20, 35, 40] 0 (some 10) 10
        = 25 / 3 := by
  have hmax1 : max 1 (s + 1) - 1 = s := by omega
  refine ⟨?_, ?_, ?_⟩
  · rw [hmax1]
    exact calculate_average_some_eq ts s T pct
  · rw [hmax1]
    exact calculate_average_none_eq ts s pct
  · norm_num [AeToggle.calculate_average_frame_time, AeToggle.average_accum,
      List.range', Option.map]

/-- Claim C7: the adjusted (unexpected) spike count of the extreme-recovery
scenario equals the raw spike count minus exactly `2 * num_iterations`
expected spikes, floored at 0 (it equals the natural-number truncated
subtraction and is never negative); with `M = 20` iterations and raw count
42, the adjusted count is 2. -/
theorem claim_C7 (total_spike_count num_iterations : Nat) :
    (AeToggle.unexpected_spikes total_spike_count num_iterations
        = ((total_spike_count - AeToggle.expected_spike_gaps num_iterations : Nat) : Int))
    ∧ 0 ≤ AeToggle.unexpected_spikes total_spike_count num_iterations
    ∧ AeToggle.expected_spike_gaps num_iterations = 2 * num_iterations
    ∧ AeToggle.unexpected_spikes 42 20 = 2 := by
  refine ⟨?_, ?_, rfl, by decide⟩
  · rw [AeToggle.unexpected_spikes, AeToggle.expected_spike_gaps]
    omega
  · rw [AeToggle.unexpected_spikes]
    omega

/-- Claim C8, counterexample: on a profile list with only a 15fps depth
profile, the toggle-file scenarios do fall back to the first profile, but the
metadata-file rapid-toggle scenario has no fallback: its selection yields
`none`, the function returns `(False, 0, 0)` without streaming, and the
subsequent `test.check(success)` records the scenario as failed — not
skipped. -/
theorem claim_C8_counterexample :
    select_depth_profile_metadata
        [StreamProfile.mk StreamType.depth StreamFmt.z16 15] = none
    ∧ toggle_metadata_profile_guard
        [StreamProfile.mk StreamType.depth StreamFmt.z16 15] = some (false, 0, 0)
    ∧ checkResult false = Verdict.failed
    ∧ Verdict.failed ≠ Verdict.skipped
    ∧ select_depth_profile_toggle
        [StreamProfile.mk StreamType.depth StreamFmt.z16 15]
      = some (StreamProfile.mk StreamType.depth StreamFmt.z16 15) := by
  decide

/-- Claim C8, amended: in the toggle-file scenarios, when no 30fps depth
profile matches, selection falls back to the first available profile so the
scenario still runs.  In the metadata-file rapid-toggle scenario there is no
fallback: the missing-profile path returns `(False, 0, 0)` and the check on
`success` reports the scenario as failed, not skipped.  In the metadata-file
steady-state helper the missing-profile path returns `(0, 0)` and the
`matches == total` check passes vacuously. -/
theorem claim_C8_amended (profiles : List StreamProfile) :
    ((profiles.find? (fun p => p.stream == StreamType.depth && p.fps == 30) = none
        → select_depth_profile_toggle profiles = profiles.head?)
      ∧ (select_depth_profile_metadata profiles = none
        → toggle_metadata_profile_guard profiles = some (false, 0, 0)
          ∧ checkResult false = Verdict.failed))
    ∧ (select_depth_profile_steady profiles = none
        → steady_profile_guard profiles = some (0, 0)
          ∧ checkResult ((0 : Nat) == 0) = Verdict.passed) := by
  refine ⟨⟨?_, ?_⟩, ?_⟩
  · intro h
    rw [select_depth_profile_toggle, h]
  · intro h
    rw [toggle_metadata_profile_guard, h]
    exact ⟨rfl, rfl⟩
  · intro h
    rw [steady_profile_guard, h]
    exact ⟨rfl, rfl⟩

/-- Claim C8, witness: the amended behavior at the concrete 15fps-only
profile list. -/
theorem claim_C8_amended_witness :
    select_depth_profile_toggle [StreamProfile.mk StreamType.depth StreamFmt.z16 15]
        = ([StreamProfile.mk StreamType.depth StreamFmt.z16 15] :
            List StreamProfile).head?
    ∧ toggle_metadata_profile_guard
        [StreamProfile.mk StreamType.depth StreamFmt.z16 15] = some (false, 0, 0) := by
  have h := claim_C8_amended [StreamProfile.mk StreamType.depth StreamFmt.z16 15]
  exact ⟨h.1.1 (by decide), (h.1.2 (by decide)).1⟩

/-- Claim C9: each complete frame-callback invocation increments the frame
count by exactly one and appends exactly one entry to each log, on both
branches (metadata present or absent), in both test files; consequently after
any delivery sequence into a fresh context, the frame count equals the length
of the metadata log (and of the timestamp log where present) and the number
of delivered frames. -/
theorem claim_C9 (ctx : AeToggle.StreamingContext)
    (ctxm : AeMetadata.StreamingContext) (now : ℚ) (ae : Option Int)
    (events : List (ℚ × Option Int)) (eventsm : List (Option Int)) :
    ((AeToggle.frame_callback ctx now ae).frame_count = ctx.frame_count + 1
      ∧ (AeToggle.frame_callback ctx now ae).frame_timestamps.length
          = ctx.frame_timestamps.length + 1
      ∧ (AeToggle.frame_callback ctx now ae).frame_ae_metadata.length
          = ctx.frame_ae_metadata.length + 1)
    ∧ ((AeMetadata.frame_callback ctxm ae).frame_count = ctxm.frame_count + 1
      ∧ (AeMetadata.frame_callback ctxm ae).frame_ae_metadata.length
          = ctxm.frame_ae_metadata.length + 1)
    ∧ ((AeToggle.run_callbacks events).frame_count
          = (AeToggle.run_callbacks events).frame_ae_metadata.length
      ∧ (AeToggle.run_callbacks events).frame_count
          = (AeToggle.run_callbacks events).frame_timestamps.length
      ∧ (AeToggle.run_callbacks events).frame_count = events.length)
    ∧ ((AeMetadata.run_callbacks eventsm).frame_count
          = (AeMetadata.run_callbacks eventsm).frame_ae_metadata.length
      ∧ (AeMetadata.run_callbacks eventsm).frame_count = eventsm.length) := by
  have ht := AeToggle.toggle_foldl_callback_lengths events
    ({} : AeToggle.StreamingContext)
  have hm := AeMetadata.metadata_foldl_callback_lengths eventsm
    ({} : AeMetadata.StreamingContext)
  refine ⟨?_, ?_, ?_, ?_⟩
  · cases ae with
    | some v => simp [AeToggle.frame_callback]
    | none => simp [AeToggle.frame_callback]
  · cases ae with
    | some v => simp [AeMetadata.frame_callback]
    | none => simp [AeMetadata.frame_callback]
  · refine ⟨?_, ?_, ?_⟩
    · rw [AeToggle.run_callbacks, ht.1, ht.2.2]
      rfl
    · rw [AeToggle.run_callbacks, ht.1, ht.2.1]
      rfl
    · rw [AeToggle.run_callbacks, ht.1]
      simp
  · refine ⟨?_, ?_⟩
    · rw [AeMetadata.run_callbacks, hm.1, hm.2]
      rfl
    · rw [AeMetadata.run_callbacks, hm.1]
      simp

/-- Claim C10: `count_gap_spikes` and the filtered-average accumulation
partition the analyzed gaps exactly: each gap in the range
`[max(1, s+1), len(ts))` is either counted as a spike (strictly above the
threshold) or contributes to the average sum and count (at most the
threshold), so the spike count plus the average gap count equals
`len(ts) - max(1, s+1)`. -/
theorem claim_C10 (ts : List ℚ) (T pct : ℚ) (s : Nat) :
    AeToggle.count_gap_spikes ts T pct s
      + (AeToggle.average_accum ts (some (T * (1 + pct / 100)))
          (List.range' (max 1 (s + 1)) (ts.length - max 1 (s + 1)))).2
    = ts.length - max 1 (s + 1) := by
  have hmax : max 1 (s + 1) = s + 1 := by omega
  have hmax1 : max 1 (s + 1) - 1 = s := by omega
  rw [count_gap_spikes_eq ts T pct s, hmax1, hmax]
  by_cases hs : s + 1 ≤ ts.length
  · rw [average_accum_some_eq ts (T * (1 + pct / 100)) s hs]
    dsimp only
    have hpart := @List.length_eq_length_filter_add _ ((gapsOf ts).drop s)
      (fun gp => decide (T * (1 + pct / 100) < gp))
    rw [List.countP_eq_length_filter]
    have hdl : ((gapsOf ts).drop s).length = ts.length - (s + 1) := by
      rw [List.length_drop, gapsOf_length]
      omega
    omega
  · have hn : ts.length - (s + 1) = 0 := by omega
    have hdrop : (gapsOf ts).drop s = [] := by
      apply List.drop_eq_nil_of_le
      rw [gapsOf_length]
      omega
    rw [hn, hdrop]
    simp [AeToggle.average_accum]

end AeTests
